import Mathlib

/-!
Shallow embedding of the superblock selection and mount path of
scoutfs (src/super.c): the brick-level superblock records, the
validator (magic + CRC32C), the two-slot selection loop of
read_supers, and the mount orchestration of scoutfs_fill_super /
scoutfs_kill_sb.  Constants and layout details that live in the
headers absent from the source tree (format.h) are modelled from the
spec and marked as such in their doc comments.
-/

namespace Scoutfs

/-- Modelled from the spec: SCOUTFS_BRICK_SIZE lives in format.h, which is
not in the source tree; the spec leaves the brick size an
implementation-defined constant.  We model a 32-byte brick: 24 bytes of
header fields (crc, padding, seq, id) followed by 8 opaque payload bytes,
which keeps every property below decidable by evaluation while preserving
the full shape of the record (checksum field, header fields, payload). -/
def SCOUTFS_BRICK_SIZE : Nat := 32

/-- Modelled from the spec: SCOUTFS_SUPER_ID lives in format.h, which is
not in the source tree; the spec only requires a fixed 64-bit magic
constant identifying a superblock record. -/
def SCOUTFS_SUPER_ID : Nat := 0x2e736674756f6373

/-- Modelled from the spec: SCOUTFS_ROOT_INO lives in format.h, which is
not in the source tree; the spec only requires a fixed well-known root
inode number constant. -/
def SCOUTFS_ROOT_INO : Nat := 1

/-- Error number EINVAL (kernel errno). -/
def EINVAL : Int := 22

/-- Error number ENOMEM (kernel errno). -/
def ENOMEM : Int := 12

/-- A brick as read from disk: a list of bytes (each < 256 in well-formed
inputs; the accessors below take bytes mod 256 so arbitrary lists are
meaningful). -/
def Brick : Type := List Nat

instance : DecidableEq Brick := by
  unfold Brick
  infer_instance

/-- Little-endian read of len bytes starting at byte offset off, as the
CPU-side value of an on-disk le32/le64 field (le32_to_cpu / le64_to_cpu). -/
def readLE (b : Brick) (off len : Nat) : Nat :=
  (List.range len).foldl (fun acc k => acc + (b.getD (off + k) 0 % 256) * 256 ^ k) 0

/-- Bit-reflected CRC32C polynomial, as used by the kernel crc32c
(Castagnoli, CRC32C_POLY_LE). -/
def CRC32C_POLY_LE : Nat := 0x82F63B78

/-- One bit step of the reflected CRC32C computation. -/
def crc32cBit (c : Nat) : Nat :=
  if c % 2 = 1 then (c / 2) ^^^ CRC32C_POLY_LE else c / 2

/-- Fold one input byte into the CRC32C state. -/
def crc32cByte (c b : Nat) : Nat :=
  (List.range 8).foldl (fun acc _ => crc32cBit acc) (c ^^^ (b % 256))

/-- Kernel crc32c(seed, data, len): reflected CRC32C over the data bytes
starting from the given seed, with no final inversion (the caller in
super.c passes the all-ones seed ~0). -/
def crc32c (seed : Nat) (data : List Nat) : Nat :=
  data.foldl crc32cByte seed

/-- Stored checksum field: super->hdr.crc, a le32 at the very start of the
record.  The offset 0 is forced by the crc computation in read_supers,
which checksums from (char *)&super->hdr.crc + sizeof(crc) for
SCOUTFS_BRICK_SIZE - sizeof(crc) bytes, i.e. the rest of the brick. -/
def hdr_crc (b : Brick) : Nat := readLE b 0 4

/-- Modelled from the spec: the offset of super->hdr.seq inside the header
is fixed in format.h, which is not in the source tree; we place the le64
sequence field at byte offset 8, after the crc and its padding. -/
def hdr_seq (b : Brick) : Nat := readLE b 8 8

/-- Modelled from the spec: the offset of super->id is fixed in format.h,
which is not in the source tree; we place the le64 magic field at byte
offset 16, after the header fields used by this code. -/
def super_id (b : Brick) : Nat := readLE b 16 8

/-- The checksum read_supers computes for a brick:
crc32c(~0, (char *)&super->hdr.crc + sizeof(crc), SCOUTFS_BRICK_SIZE - sizeof(crc)),
i.e. CRC32C with all-ones seed over the brick bytes after the 4-byte crc
field, for SCOUTFS_BRICK_SIZE - 4 bytes. -/
def computedCrc (b : Brick) : Nat :=
  crc32c 0xFFFFFFFF ((b.drop 4).take (SCOUTFS_BRICK_SIZE - 4))

/-- A brick passes the magic check of read_supers:
super->id == cpu_to_le64(SCOUTFS_SUPER_ID). -/
def magicOk (b : Brick) : Bool := super_id b == SCOUTFS_SUPER_ID

/-- A brick passes the checksum check of read_supers:
the computed crc equals le32_to_cpu(super->hdr.crc). -/
def crcOk (b : Brick) : Bool := computedCrc b == hdr_crc b

/-- A brick survives both validation checks of read_supers (magic and
checksum); only such bricks can become the selected superblock. -/
def isValid (b : Brick) : Bool := magicOk b && crcOk b

/-- The loop state of read_supers: found is the C int initialized to -1,
super is the struct scoutfs_super copy held in sbi->super (zeroed by
kzalloc before the loop runs). -/
structure ReadState where
  found : Int
  super : Brick
deriving DecidableEq

/-- The zeroed initial state: found = -1 and sbi->super all zero bytes,
as left by kzalloc of struct scoutfs_sb_info. -/
def initState : ReadState :=
  { found := -1, super := List.replicate SCOUTFS_BRICK_SIZE 0 }

/-- One iteration of the read_supers loop at slot index i.  The Option
models the sb_bread result: none is an I/O failure (skipped with a
warning), some b is the brick contents.  The three early continue paths
of the C body (read failure, bad magic, bad crc) leave the state
untouched; otherwise the brick replaces the best candidate exactly when
found < 0 or its sequence is strictly greater. -/
def read_super_slot (i : Nat) (ob : Option Brick) (st : ReadState) : ReadState :=
  match ob with
  | none => st
  | some super =>
    if super_id super ≠ SCOUTFS_SUPER_ID then st
    else if computedCrc super ≠ hdr_crc super then st
    else if st.found < 0 ∨ hdr_seq st.super < hdr_seq super then
      { found := (i : Int), super := super }
    else st

/-- The for loop of read_supers, generalized as in the spec from the
hardcoded slot count 2 to a fold over a list of per-slot read results,
with i the C loop counter. -/
def read_supers_loop : Nat → ReadState → List (Option Brick) → ReadState
  | _, st, [] => st
  | i, st, ob :: rest => read_supers_loop (i + 1) (read_super_slot i ob st) rest

/-- The whole scan of read_supers starting from the zeroed state at slot
index 0. -/
def read_supers_scan (slots : List (Option Brick)) : ReadState :=
  read_supers_loop 0 initState slots

/-- The part of struct scoutfs_sb_info this code initializes: the selected
superblock copy and the two allocation counters (the bloom hash keys are
drawn from the random source and the item trees belong to external
collaborators; neither is observed by the properties below). -/
structure scoutfs_sb_info where
  super : Brick
  next_ino : Nat
  next_blkno : Nat
deriving DecidableEq

/-- read_supers: scan both slots, fail with -EINVAL when no slot produced
a valid record, otherwise report the winning slot index and seed the
counters from the fixed bootstrap constants (SCOUTFS_ROOT_INO + 1 and 2),
exactly as lines 78-90 of super.c do. -/
def read_supers (slots : List (Option Brick)) : Except Int (Nat × scoutfs_sb_info) :=
  let st := read_supers_scan slots
  if st.found < 0 then .error (-EINVAL)
  else .ok (st.found.toNat,
    { super := st.super
      next_ino := SCOUTFS_ROOT_INO + 1
      next_blkno := 2 })

instance {α β : Type} [DecidableEq α] [DecidableEq β] : DecidableEq (Except α β) :=
  fun x y =>
    match x, y with
    | .error a, .error b =>
      if h : a = b then isTrue (by rw [h])
      else isFalse (by intro he; cases he; exact h rfl)
    | .error _, .ok _ => isFalse (by intro h; cases h)
    | .ok _, .error _ => isFalse (by intro h; cases h)
    | .ok a, .ok b =>
      if h : a = b then isTrue (by rw [h])
      else isFalse (by intro he; cases he; exact h rfl)

/-- The brick a given slot index yields, if its read succeeded: slots is
the list of per-slot sb_bread results (none is an I/O failure). -/
def slotBrick : List (Option Brick) → Nat → Option Brick
  | [], _ => none
  | ob :: _, 0 => ob
  | _ :: rest, k + 1 => slotBrick rest k

/-- The observable stages of scoutfs_fill_super, in the order the code
runs them, used to state ordering properties of the mount path. -/
inductive MountEvent where
  | Kzalloc
  | SetBlocksize
  | ReadSupers
  | Iget
  | MakeRoot
deriving DecidableEq

/-- The external collaborators and fallible environment of
scoutfs_fill_super: whether kzalloc succeeds, whether sb_set_blocksize
succeeds, the per-slot read results, the scoutfs_iget collaborator
(resolving an inode number to an inode object, here an abstract Nat
handle, or an error as IS_ERR/PTR_ERR), and whether d_make_root succeeds
on a given inode. -/
structure FillInput where
  allocOk : Bool
  blocksizeOk : Bool
  slots : List (Option Brick)
  iget : Nat → Except Int Nat
  mkRootOk : Nat → Bool

/-- The part of struct super_block this code touches: s_fs_info (the
allocated scoutfs_sb_info, none when unset or freed) and s_root (the
attached root object). -/
structure SB where
  s_fs_info : Option scoutfs_sb_info
  s_root : Option Nat

/-- The zeroed scoutfs_sb_info as kzalloc leaves it, before read_supers
fills it in. -/
def zeroed_sb_info : scoutfs_sb_info :=
  { super := List.replicate SCOUTFS_BRICK_SIZE 0, next_ino := 0, next_blkno := 0 }

/-- scoutfs_fill_super: allocate the sb_info with kzalloc (returning
-ENOMEM on failure), set the block size (returning -EINVAL on failure),
run read_supers (propagating its error), resolve the root inode with
scoutfs_iget(sb, SCOUTFS_ROOT_INO) (propagating PTR_ERR on failure), and
attach it with d_make_root (returning -ENOMEM on failure).  Returns the C
return value, the resulting super_block state, and the trace of stages
reached, in order. -/
def scoutfs_fill_super (inp : FillInput) (sb : SB) : Int × SB × List MountEvent :=
  if !inp.allocOk then
    (-ENOMEM, { sb with s_fs_info := none }, [.Kzalloc])
  else
    let sb1 : SB := { sb with s_fs_info := some zeroed_sb_info }
    if !inp.blocksizeOk then
      (-EINVAL, sb1, [.Kzalloc, .SetBlocksize])
    else
      match read_supers inp.slots with
      | .error e => (e, sb1, [.Kzalloc, .SetBlocksize, .ReadSupers])
      | .ok (_, sbi) =>
        let sb2 : SB := { sb1 with s_fs_info := some sbi }
        match inp.iget SCOUTFS_ROOT_INO with
        | .error e => (e, sb2, [.Kzalloc, .SetBlocksize, .ReadSupers, .Iget])
        | .ok inode =>
          if inp.mkRootOk inode then
            (0, { sb2 with s_root := some inode },
              [.Kzalloc, .SetBlocksize, .ReadSupers, .Iget, .MakeRoot])
          else
            (-ENOMEM, sb2,
              [.Kzalloc, .SetBlocksize, .ReadSupers, .Iget, .MakeRoot])

/-- scoutfs_kill_sb: kill_block_super followed by kfree(sb->s_fs_info),
releasing the filesystem context. -/
def scoutfs_kill_sb (sb : SB) : SB :=
  { sb with s_fs_info := none }

/-- Modelled from the spec: mount_bdev and the teardown contract live in
the host kernel, outside the source tree.  The spec requires that a mount
failure after context initialization releases the context before the
error reaches the caller; mount_bdev does so by invoking the filesystem
type's kill_sb (here scoutfs_kill_sb) on the partially set up super_block
whenever fill_super fails. -/
def scoutfs_mount (inp : FillInput) : Int × SB × List MountEvent :=
  let r := scoutfs_fill_super inp { s_fs_info := none, s_root := none }
  if r.1 ≠ 0 then (r.1, scoutfs_kill_sb r.2.1, r.2.2) else r

/-- Modelled from the spec: the inode allocation path that consumes
next_ino is in inode.c, outside the source tree.  The spec describes
next_ino as a monotonically increasing allocation counter, so the k-th
inode number handed out after mount is the seeded value plus k. -/
def allocatedIno (sbi : scoutfs_sb_info) (k : Nat) : Nat :=
  sbi.next_ino + k

/-- Little-endian encoding of a value into len bytes, for building
concrete on-disk bricks in the closed test configurations below. -/
def le (len v : Nat) : List Nat :=
  (List.range len).map (fun k => v / 256 ^ k % 256)

/-- The body of a well-formed brick after its 4-byte crc field: 4 bytes
of padding, the le64 sequence, the le64 magic, and 8 payload bytes all
equal to p. -/
def brickBody (seq p : Nat) : List Nat :=
  List.replicate 4 0 ++ le 8 seq ++ le 8 SCOUTFS_SUPER_ID ++ List.replicate 8 p

/-- A well-formed brick with the given sequence number and payload byte:
its stored crc is the CRC32C (all-ones seed) of the rest of the brick, so
it passes validation by construction. -/
def mkBrick (seq p : Nat) : Brick :=
  le 4 (crc32c 0xFFFFFFFF (brickBody seq p)) ++ brickBody seq p

/-- A corrupted brick: correct magic and the same body as mkBrick, but a
stored crc that differs from the computed one (off by one). -/
def badCrcBrick (seq p : Nat) : Brick :=
  le 4 ((crc32c 0xFFFFFFFF (brickBody seq p) + 1) % 2 ^ 32) ++ brickBody seq p

/-- A brick whose magic field is wrong: all zero bytes. -/
def badMagicBrick : Brick :=
  List.replicate SCOUTFS_BRICK_SIZE 0

/-- The scoutfs_sb_info read_supers builds around a winning brick: the
brick stored as the active superblock and the counters seeded from the
fixed bootstrap constants. -/
def sbiOf (b : Brick) : scoutfs_sb_info :=
  { super := b, next_ino := SCOUTFS_ROOT_INO + 1, next_blkno := 2 }

/-- The checksum coverage exactly as the spec words it: every byte of the
record except the checksum field itself, the checksum field being the
4-byte crc at the start of the record.  Stated from the spec, to be
compared against the region the code actually checksums. -/
def specCrcRegion (b : Brick) : List Nat := b.drop 4

/-- The per-run ordering property claimed for the first two mount stages:
whenever the run allocates the filesystem context, the device block size
was already set, at an earlier position in the stage trace. -/
def blocksizeBeforeAlloc (ev : List MountEvent) : Prop :=
  MountEvent.Kzalloc ∈ ev →
    MountEvent.SetBlocksize ∈ ev ∧
      ev.indexOf MountEvent.SetBlocksize < ev.indexOf MountEvent.Kzalloc

instance (ev : List MountEvent) : Decidable (blocksizeBeforeAlloc ev) := by
  unfold blocksizeBeforeAlloc
  infer_instance

/-- A fresh super_block as handed to fill_super: nothing allocated or
attached yet. -/
def sb0 : SB := { s_fs_info := none, s_root := none }

/-- A fully healthy mount environment: allocation and block size succeed,
slot 0 holds a valid brick, slot 1 fails to read, and the inode and root
collaborators succeed. -/
def inpOk : FillInput :=
  { allocOk := true, blocksizeOk := true,
    slots := [some (mkBrick 1 0), none],
    iget := fun n => .ok n, mkRootOk := fun _ => true }

/-- A mount environment whose two slots both read but hold a wrong magic:
scenario D of the spec. -/
def inpBadMagic : FillInput :=
  { allocOk := true, blocksizeOk := true,
    slots := [some badMagicBrick, some badMagicBrick],
    iget := fun n => .ok n, mkRootOk := fun _ => true }

/-- A mount environment with a valid slot 0 but failing root inode
resolution (scoutfs_iget returns the error pointer -2, -ENOENT). -/
def inpIgetFail : FillInput :=
  { allocOk := true, blocksizeOk := true,
    slots := [some (mkBrick 1 0), none],
    iget := fun _ => .error (-2), mkRootOk := fun _ => true }

/-- A second healthy mount environment whose selected record differs from
inpOk's in both sequence and payload bytes. -/
def inpOk2 : FillInput :=
  { allocOk := true, blocksizeOk := true,
    slots := [some (mkBrick 7 4), none],
    iget := fun n => .ok n, mkRootOk := fun _ => true }

theorem read_super_slot_none (i : Nat) (st : ReadState) :
    read_super_slot i none st = st := rfl

theorem read_super_slot_invalid (i : Nat) (st : ReadState) (b : Brick)
    (h : isValid b = false) : read_super_slot i (some b) st = st := by
  have h2 := h
  simp only [isValid, magicOk, crcOk, Bool.and_eq_false_iff, beq_eq_false_iff_ne,
    ne_eq] at h2
  simp only [read_super_slot]
  rcases h2 with h2 | h2
  · rw [if_pos h2]
  · by_cases hm : super_id b ≠ SCOUTFS_SUPER_ID
    · rw [if_pos hm]
    · rw [if_neg hm, if_pos h2]

theorem read_super_slot_valid (i : Nat) (st : ReadState) (b : Brick)
    (h : isValid b = true) :
    read_super_slot i (some b) st =
      if st.found < 0 ∨ hdr_seq st.super < hdr_seq b then
        { found := (i : Int), super := b }
      else st := by
  simp only [isValid, magicOk, crcOk, Bool.and_eq_true, beq_iff_eq] at h
  have h1 : ¬(super_id b ≠ SCOUTFS_SUPER_ID) := fun hne => hne h.1
  have h2 : ¬(computedCrc b ≠ hdr_crc b) := fun hne => hne h.2
  simp only [read_super_slot]
  rw [if_neg h1, if_neg h2]

theorem slotBrick_cons_zero (ob : Option Brick) (rest : List (Option Brick)) :
    slotBrick (ob :: rest) 0 = ob := rfl

theorem slotBrick_cons_succ (ob : Option Brick) (rest : List (Option Brick)) (k : Nat) :
    slotBrick (ob :: rest) (k + 1) = slotBrick rest k := rfl

/-- Full characterization of the read_supers loop from an arbitrary loop
counter and state: either the state is returned untouched and every valid
slot in the remaining list already loses to it (so in particular, if no
valid slot remains the state passes through), or the loop returns a valid
brick bw found at some slot w, with found = i + w, such that bw strictly
beats the incoming candidate, weakly dominates the sequence of every
valid slot, and strictly dominates the sequence of every valid slot
scanned before w. -/
theorem read_supers_loop_char (slots : List (Option Brick)) :
    ∀ (i : Nat) (st : ReadState),
    (read_supers_loop i st slots = st ∧
      ∀ k b, slotBrick slots k = some b → isValid b = true →
        0 ≤ st.found ∧ hdr_seq b ≤ hdr_seq st.super)
    ∨ (∃ w bw, slotBrick slots w = some bw ∧ isValid bw = true ∧
        read_supers_loop i st slots = { found := (i : Int) + (w : Int), super := bw } ∧
        (0 ≤ st.found → hdr_seq st.super < hdr_seq bw) ∧
        (∀ k b, slotBrick slots k = some b → isValid b = true →
          hdr_seq b ≤ hdr_seq bw) ∧
        (∀ k b, k < w → slotBrick slots k = some b → isValid b = true →
          hdr_seq b < hdr_seq bw)) := by
  induction slots with
  | nil =>
    intro i st
    exact Or.inl ⟨rfl, fun k b hk => by cases k <;> cases hk⟩
  | cons ob rest ih =>
    intro i st
    have hstep : read_supers_loop i st (ob :: rest) =
        read_supers_loop (i + 1) (read_super_slot i ob st) rest := rfl
    by_cases hok : ∃ b, ob = some b ∧ isValid b = true
    · obtain ⟨b, hob, hvb⟩ := hok
      subst hob
      rw [read_super_slot_valid i st b hvb] at hstep
      by_cases hcond : st.found < 0 ∨ hdr_seq st.super < hdr_seq b
      · -- the brick replaces the best candidate
        rw [if_pos hcond] at hstep
        rcases ih (i + 1) { found := (i : Int), super := b } with ⟨heq, hall⟩ |
          ⟨w, bw, hw, hvw, heq, hst, hmax, hfirst⟩
        · refine Or.inr ⟨0, b, rfl, hvb, ?_, ?_, ?_, ?_⟩
          · rw [hstep, heq]
            simp
          · intro hf
            rcases hcond with hcond | hcond
            · omega
            · exact hcond
          · intro k c hk hvc
            cases k with
            | zero =>
              rw [slotBrick_cons_zero] at hk
              cases hk
              exact le_refl _
            | succ k =>
              rw [slotBrick_cons_succ] at hk
              exact (hall k c hk hvc).2
          · intro k c hklt
            omega
        · refine Or.inr ⟨w + 1, bw, ?_, hvw, ?_, ?_, ?_, ?_⟩
          · rw [slotBrick_cons_succ]
            exact hw
          · rw [hstep, heq]
            congr 1
            push_cast
            ring
          · intro hf
            have hstrict : hdr_seq b < hdr_seq bw := hst (by simp)
            rcases hcond with hcond | hcond
            · omega
            · exact lt_trans hcond hstrict
          · intro k c hk hvc
            cases k with
            | zero =>
              rw [slotBrick_cons_zero] at hk
              cases hk
              exact le_of_lt (hst (by simp))
            | succ k =>
              rw [slotBrick_cons_succ] at hk
              exact hmax k c hk hvc
          · intro k c hklt hk hvc
            cases k with
            | zero =>
              rw [slotBrick_cons_zero] at hk
              cases hk
              exact hst (by simp)
            | succ k =>
              rw [slotBrick_cons_succ] at hk
              exact hfirst k c (by omega) hk hvc
      · -- the brick is valid but loses to the current best candidate
        rw [if_neg hcond] at hstep
        push_neg at hcond
        obtain ⟨hf0, hseq⟩ := hcond
        rcases ih (i + 1) st with ⟨heq, hall⟩ |
          ⟨w, bw, hw, hvw, heq, hst, hmax, hfirst⟩
        · refine Or.inl ⟨by rw [hstep, heq], ?_⟩
          intro k c hk hvc
          cases k with
          | zero =>
            rw [slotBrick_cons_zero] at hk
            cases hk
            exact ⟨by omega, hseq⟩
          | succ k =>
            rw [slotBrick_cons_succ] at hk
            exact hall k c hk hvc
        · have hstlt : hdr_seq st.super < hdr_seq bw := hst (by omega)
          refine Or.inr ⟨w + 1, bw, ?_, hvw, ?_, ?_, ?_, ?_⟩
          · rw [slotBrick_cons_succ]
            exact hw
          · rw [hstep, heq]
            congr 1
            push_cast
            ring
          · intro _
            exact hstlt
          · intro k c hk hvc
            cases k with
            | zero =>
              rw [slotBrick_cons_zero] at hk
              cases hk
              exact le_of_lt (lt_of_le_of_lt hseq hstlt)
            | succ k =>
              rw [slotBrick_cons_succ] at hk
              exact hmax k c hk hvc
          · intro k c hklt hk hvc
            cases k with
            | zero =>
              rw [slotBrick_cons_zero] at hk
              cases hk
              exact lt_of_le_of_lt hseq hstlt
            | succ k =>
              rw [slotBrick_cons_succ] at hk
              exact hfirst k c (by omega) hk hvc
    · -- read failure or invalid brick: the slot is skipped
      have hskip : read_super_slot i ob st = st := by
        cases ob with
        | none => exact read_super_slot_none i st
        | some b =>
          refine read_super_slot_invalid i st b ?_
          by_cases hv : isValid b = true
          · exact absurd ⟨b, rfl, hv⟩ hok
          · simpa using hv
      rw [hskip] at hstep
      rcases ih (i + 1) st with ⟨heq, hall⟩ |
        ⟨w, bw, hw, hvw, heq, hst, hmax, hfirst⟩
      · refine Or.inl ⟨by rw [hstep, heq], ?_⟩
        intro k c hk hvc
        cases k with
        | zero =>
          rw [slotBrick_cons_zero] at hk
          cases hk
          exact absurd ⟨c, rfl, hvc⟩ hok
        | succ k =>
          rw [slotBrick_cons_succ] at hk
          exact hall k c hk hvc
      · refine Or.inr ⟨w + 1, bw, ?_, hvw, ?_, hst, ?_, ?_⟩
        · rw [slotBrick_cons_succ]
          exact hw
        · rw [hstep, heq]
          congr 1
          push_cast
          ring
        · intro k c hk hvc
          cases k with
          | zero =>
            rw [slotBrick_cons_zero] at hk
            cases hk
            exact absurd ⟨c, rfl, hvc⟩ hok
          | succ k =>
            rw [slotBrick_cons_succ] at hk
            exact hmax k c hk hvc
        · intro k c hklt hk hvc
          cases k with
          | zero =>
            rw [slotBrick_cons_zero] at hk
            cases hk
            exact absurd ⟨c, rfl, hvc⟩ hok
          | succ k =>
            rw [slotBrick_cons_succ] at hk
            exact hfirst k c (by omega) hk hvc

/-- Converts the loop characterization result into the read_supers return
value: when the loop ends with found = 0 + w, read_supers succeeds with
winning slot w, the winning brick stored bit-for-bit in sbi->super, and
the counters seeded from the fixed bootstrap constants. -/
theorem read_supers_loop_to_ok (slots : List (Option Brick)) (w : Nat) (bw : Brick)
    (heq : read_supers_loop 0 initState slots =
      { found := ((0 : Nat) : Int) + (w : Int), super := bw }) :
    read_supers slots =
      .ok (w, { super := bw, next_ino := SCOUTFS_ROOT_INO + 1, next_blkno := 2 }) := by
  have hnn : ¬(((0 : Nat) : Int) + (w : Int) < 0) := by omega
  simp only [read_supers, read_supers_scan, heq, hnn, if_false, if_neg]
  simp

/-- If some slot yields a valid brick, read_supers succeeds and returns a
winning slot w holding a valid brick bw whose sequence weakly dominates
every valid slot and strictly dominates every valid slot scanned before
w; the context counters are seeded from the fixed constants. -/
theorem read_supers_spec (slots : List (Option Brick)) (j : Nat) (bj : Brick)
    (hj : slotBrick slots j = some bj) (hvj : isValid bj = true) :
    ∃ w bw, slotBrick slots w = some bw ∧ isValid bw = true ∧
      read_supers slots =
        .ok (w, { super := bw, next_ino := SCOUTFS_ROOT_INO + 1, next_blkno := 2 }) ∧
      (∀ k b, slotBrick slots k = some b → isValid b = true →
        hdr_seq b ≤ hdr_seq bw) ∧
      (∀ k b, k < w → slotBrick slots k = some b → isValid b = true →
        hdr_seq b < hdr_seq bw) := by
  rcases read_supers_loop_char slots 0 initState with ⟨_, hall⟩ |
    ⟨w, bw, hw, hvw, heq, _, hmax, hfirst⟩
  · have h0 := (hall j bj hj hvj).1
    simp [initState] at h0
  · exact ⟨w, bw, hw, hvw, read_supers_loop_to_ok slots w bw heq, hmax, hfirst⟩

/-- If no slot yields a valid brick, read_supers fails with -EINVAL. -/
theorem read_supers_error (slots : List (Option Brick))
    (hnv : ∀ k b, slotBrick slots k = some b → isValid b = false) :
    read_supers slots = .error (-EINVAL) := by
  rcases read_supers_loop_char slots 0 initState with ⟨heq, _⟩ |
    ⟨w, bw, hw, hvw, _, _, _, _⟩
  · simp only [read_supers, read_supers_scan, heq]
    simp [initState]
  · rw [hnv w bw hw] at hvw
    cases hvw

/-- Whenever read_supers succeeds, the winning slot index w names a slot
whose read succeeded and whose brick is valid, the stored super is
bit-for-bit that brick, the counters are the fixed constants, and the
winner dominates every valid slot as in read_supers_spec. -/
theorem read_supers_ok_inv (slots : List (Option Brick)) (w : Nat)
    (sbi : scoutfs_sb_info) (h : read_supers slots = .ok (w, sbi)) :
    slotBrick slots w = some sbi.super ∧ isValid sbi.super = true ∧
    sbi.next_ino = SCOUTFS_ROOT_INO + 1 ∧ sbi.next_blkno = 2 ∧
    (∀ k b, slotBrick slots k = some b → isValid b = true →
      hdr_seq b ≤ hdr_seq sbi.super) ∧
    (∀ k b, k < w → slotBrick slots k = some b → isValid b = true →
      hdr_seq b < hdr_seq sbi.super) := by
  rcases read_supers_loop_char slots 0 initState with ⟨heq, _⟩ |
    ⟨w', bw, hw, hvw, heq, _, hmax, hfirst⟩
  · simp only [read_supers, read_supers_scan, heq] at h
    simp [initState] at h
  · rw [read_supers_loop_to_ok slots w' bw heq] at h
    have hinj := h
    injection hinj with hinj2
    injection hinj2 with hww hsbi
    subst hww
    subst hsbi
    exact ⟨hw, hvw, rfl, rfl, hmax, hfirst⟩

/-- A property holds of every brick yielded by a two-slot configuration
as soon as it holds of each of the two slots. -/
theorem slotBrick_pair (P : Brick → Prop) (o1 o2 : Option Brick)
    (h1 : ∀ b, o1 = some b → P b) (h2 : ∀ b, o2 = some b → P b) :
    ∀ k b, slotBrick [o1, o2] k = some b → P b := by
  intro k b hk
  cases k with
  | zero => exact h1 b hk
  | succ k =>
    cases k with
    | zero => exact h2 b hk
    | succ k => simp [slotBrick] at hk

/-- C1: whenever some slot holds a valid record (so in particular in every
configuration where more than one slot does), selection succeeds and
returns a valid record whose header sequence is greater than or equal to
that of every valid slot, and if a valid slot ties the winning sequence
then the winning slot index is less than or equal to its index: the first
slot in ascending scan order attaining the greatest sequence wins, and a
later equal-sequence record never replaces the current best. -/
theorem C1_selection_greatest_seq_first_slot_wins
    (slots : List (Option Brick)) (j : Nat) (bj : Brick)
    (hj : slotBrick slots j = some bj) (hvj : isValid bj = true) :
    ∃ w bw, slotBrick slots w = some bw ∧ isValid bw = true ∧
      read_supers slots =
        .ok (w, { super := bw, next_ino := SCOUTFS_ROOT_INO + 1, next_blkno := 2 }) ∧
      (∀ k b, slotBrick slots k = some b → isValid b = true →
        hdr_seq b ≤ hdr_seq bw) ∧
      (∀ k b, slotBrick slots k = some b → isValid b = true →
        hdr_seq b = hdr_seq bw → w ≤ k) := by
  obtain ⟨w, bw, hw, hvw, hok, hmax, hfirst⟩ := read_supers_spec slots j bj hj hvj
  refine ⟨w, bw, hw, hvw, hok, hmax, ?_⟩
  intro k b hk hv hseq
  by_contra hlt
  push_neg at hlt
  exact absurd hseq (ne_of_lt (hfirst k b hlt hk hv))

set_option maxRecDepth 400000 in
/-- Witness for C1: slots 0 and 1 both valid, sequences 5 and 9: the
theorem applies and selection picks the sequence-9 record at slot 1. -/
theorem C1_selection_greatest_seq_first_slot_wins_witness :
    slotBrick [some (mkBrick 5 1), some (mkBrick 9 2)] 1 = some (mkBrick 9 2) ∧
    isValid (mkBrick 9 2) = true ∧
    (∃ w bw, slotBrick [some (mkBrick 5 1), some (mkBrick 9 2)] w = some bw ∧
      isValid bw = true ∧
      read_supers [some (mkBrick 5 1), some (mkBrick 9 2)] =
        .ok (w, { super := bw, next_ino := SCOUTFS_ROOT_INO + 1, next_blkno := 2 }) ∧
      (∀ k b, slotBrick [some (mkBrick 5 1), some (mkBrick 9 2)] k = some b →
        isValid b = true → hdr_seq b ≤ hdr_seq bw) ∧
      (∀ k b, slotBrick [some (mkBrick 5 1), some (mkBrick 9 2)] k = some b →
        isValid b = true → hdr_seq b = hdr_seq bw → w ≤ k)) :=
  ⟨rfl, by decide,
    C1_selection_greatest_seq_first_slot_wins
      [some (mkBrick 5 1), some (mkBrick 9 2)] 1 (mkBrick 9 2) rfl (by decide)⟩

/-- C2: whatever the slot contents, whenever selection succeeds the
winning slot holds a brick that was read successfully and passes both the
magic check and the checksum check, and that brick is the record stored
in the context: a record failing validation is never selected, whatever
its sequence, so validity strictly dominates recency. -/
theorem C2_invalid_record_never_selected (slots : List (Option Brick))
    (w : Nat) (sbi : scoutfs_sb_info)
    (h : read_supers slots = .ok (w, sbi)) :
    slotBrick slots w = some sbi.super ∧ magicOk sbi.super = true ∧
    crcOk sbi.super = true ∧ isValid sbi.super = true := by
  obtain ⟨hw, hv, _, _, _, _⟩ := read_supers_ok_inv slots w sbi h
  have hv2 := hv
  simp only [isValid, Bool.and_eq_true] at hv2
  exact ⟨hw, hv2.1, hv2.2, hv⟩

set_option maxRecDepth 400000 in
/-- Witness for C2: scenario A of the spec: slot 0 valid with sequence 5,
slot 1 with sequence 7 but corrupted checksum: selection returns slot 0
and the theorem certifies the winner is valid. -/
theorem C2_invalid_record_never_selected_witness :
    read_supers [some (mkBrick 5 1), some (badCrcBrick 7 2)] =
      .ok (0, sbiOf (mkBrick 5 1)) ∧
    (slotBrick [some (mkBrick 5 1), some (badCrcBrick 7 2)] 0 =
      some (sbiOf (mkBrick 5 1)).super ∧
      magicOk (sbiOf (mkBrick 5 1)).super = true ∧
      crcOk (sbiOf (mkBrick 5 1)).super = true ∧
      isValid (sbiOf (mkBrick 5 1)).super = true) :=
  ⟨by decide,
    C2_invalid_record_never_selected [some (mkBrick 5 1), some (badCrcBrick 7 2)] 0
      (sbiOf (mkBrick 5 1)) (by decide)⟩

/-- C4: an I/O failure reading one slot (modelled by the slot list holding
none at that index) is non-fatal: as long as some other slot holds a
valid record, selection succeeds, returning a valid record read from the
winning slot. -/
theorem C4_single_read_failure_nonfatal (slots : List (Option Brick))
    (i j : Nat) (bj : Brick)
    (_hfail : slots.get? i = some none)
    (hj : slotBrick slots j = some bj) (hvj : isValid bj = true) :
    ∃ w sbi, read_supers slots = .ok (w, sbi) ∧
      slotBrick slots w = some sbi.super ∧ isValid sbi.super = true := by
  obtain ⟨w, bw, hw, hvw, hok, _, _⟩ := read_supers_spec slots j bj hj hvj
  exact ⟨w, _, hok, hw, hvw⟩

set_option maxRecDepth 400000 in
/-- Witness for C4: scenario C of the spec: slot 0 read fails, slot 1 is
valid with sequence 1: selection succeeds despite the I/O error. -/
theorem C4_single_read_failure_nonfatal_witness :
    [none, some (mkBrick 1 0)].get? 0 = some none ∧
    slotBrick [none, some (mkBrick 1 0)] 1 = some (mkBrick 1 0) ∧
    isValid (mkBrick 1 0) = true ∧
    (∃ w sbi, read_supers [none, some (mkBrick 1 0)] = .ok (w, sbi) ∧
      slotBrick [none, some (mkBrick 1 0)] w = some sbi.super ∧
      isValid sbi.super = true) :=
  ⟨rfl, rfl, by decide,
    C4_single_read_failure_nonfatal [none, some (mkBrick 1 0)] 0 1 (mkBrick 1 0)
      rfl rfl (by decide)⟩

/-- C9: whenever selection succeeds, the superblock record stored in the
context (sbi->super) is byte-for-byte equal to the brick read from the
winning slot, opaque payload bytes included: the memcpy in the loop keeps
the stored record identical to the last accepted candidate, which after
the scan is the reported winner. -/
theorem C9_stored_super_is_winning_brick (slots : List (Option Brick))
    (w : Nat) (sbi : scoutfs_sb_info)
    (h : read_supers slots = .ok (w, sbi)) :
    slotBrick slots w = some sbi.super := by
  exact (read_supers_ok_inv slots w sbi h).1

set_option maxRecDepth 400000 in
/-- Witness for C9: two valid bricks with distinct payload bytes: the
stored record equals the winning slot 1 brick, payload included. -/
theorem C9_stored_super_is_winning_brick_witness :
    read_supers [some (mkBrick 3 1), some (mkBrick 9 2)] =
      .ok (1, sbiOf (mkBrick 9 2)) ∧
    slotBrick [some (mkBrick 3 1), some (mkBrick 9 2)] 1 =
      some (sbiOf (mkBrick 9 2)).super :=
  ⟨by decide,
    C9_stored_super_is_winning_brick [some (mkBrick 3 1), some (mkBrick 9 2)] 1
      (sbiOf (mkBrick 9 2)) (by decide)⟩

/-- C10: after every successful selection the inode counter is seeded to
SCOUTFS_ROOT_INO + 1, strictly above the fixed root inode number that
scoutfs_fill_super resolves the root with, so every inode number the
monotonically increasing counter subsequently hands out exceeds the root
inode number and never collides with it. -/
theorem C10_next_ino_strictly_above_root (slots : List (Option Brick))
    (w : Nat) (sbi : scoutfs_sb_info)
    (h : read_supers slots = .ok (w, sbi)) :
    sbi.next_ino = SCOUTFS_ROOT_INO + 1 ∧
    ∀ k, SCOUTFS_ROOT_INO < allocatedIno sbi k := by
  obtain ⟨_, _, hino, _, _, _⟩ := read_supers_ok_inv slots w sbi h
  refine ⟨hino, ?_⟩
  intro k
  simp only [allocatedIno, hino]
  omega

set_option maxRecDepth 400000 in
/-- Witness for C10: a successful one-valid-slot mount seeds the counter
to the root inode number plus one. -/
theorem C10_next_ino_strictly_above_root_witness :
    read_supers [some (mkBrick 1 0), none] = .ok (0, sbiOf (mkBrick 1 0)) ∧
    ((sbiOf (mkBrick 1 0)).next_ino = SCOUTFS_ROOT_INO + 1 ∧
      ∀ k, SCOUTFS_ROOT_INO < allocatedIno (sbiOf (mkBrick 1 0)) k) :=
  ⟨by decide,
    C10_next_ino_strictly_above_root [some (mkBrick 1 0), none] 0
      (sbiOf (mkBrick 1 0)) (by decide)⟩

/-- C3: when no slot yields a valid record, selection fails with the
distinguished -EINVAL error, scoutfs_fill_super returns that error, the
stage trace stops at superblock reading, and neither root inode
resolution nor root attachment ever happens: the super_block's root stays
whatever it was. -/
theorem C3_no_valid_superblock_aborts_mount (inp : FillInput) (sb : SB)
    (halloc : inp.allocOk = true) (hbs : inp.blocksizeOk = true)
    (hnv : ∀ k b, slotBrick inp.slots k = some b → isValid b = false) :
    read_supers inp.slots = .error (-EINVAL) ∧
    (scoutfs_fill_super inp sb).1 = -EINVAL ∧
    (scoutfs_fill_super inp sb).2.2 =
      [MountEvent.Kzalloc, MountEvent.SetBlocksize, MountEvent.ReadSupers] ∧
    MountEvent.Iget ∉ (scoutfs_fill_super inp sb).2.2 ∧
    MountEvent.MakeRoot ∉ (scoutfs_fill_super inp sb).2.2 ∧
    (scoutfs_fill_super inp sb).2.1.s_root = sb.s_root := by
  have herr := read_supers_error inp.slots hnv
  refine ⟨herr, ?_⟩
  simp [scoutfs_fill_super, halloc, hbs, herr]

set_option maxRecDepth 400000 in
/-- Witness for C3: scenario D of the spec: both slots read but hold a
wrong magic, so the mount aborts with -EINVAL before any inode work. -/
theorem C3_no_valid_superblock_aborts_mount_witness :
    read_supers inpBadMagic.slots = .error (-EINVAL) ∧
    (scoutfs_fill_super inpBadMagic sb0).1 = -EINVAL ∧
    (scoutfs_fill_super inpBadMagic sb0).2.2 =
      [MountEvent.Kzalloc, MountEvent.SetBlocksize, MountEvent.ReadSupers] ∧
    MountEvent.Iget ∉ (scoutfs_fill_super inpBadMagic sb0).2.2 ∧
    MountEvent.MakeRoot ∉ (scoutfs_fill_super inpBadMagic sb0).2.2 ∧
    (scoutfs_fill_super inpBadMagic sb0).2.1.s_root = sb0.s_root :=
  C3_no_valid_superblock_aborts_mount inpBadMagic sb0 rfl rfl
    (slotBrick_pair (fun b => isValid b = false) (some badMagicBrick) (some badMagicBrick)
      (by intro b hb; cases hb; decide)
      (by intro b hb; cases hb; decide))

/-- C5: for a brick of full size whose magic matches, the region the code
checksums (from just after the 4-byte crc field, for brick size minus 4
bytes) is exactly every byte of the record except the checksum field;
the code computes CRC32C over it seeded with all ones, and the brick
passes validation exactly when that value equals the stored header crc -
so any record whose recomputed checksum differs is rejected. -/
theorem C5_crc32c_all_bytes_except_checksum (b : Brick)
    (hlen : b.length = SCOUTFS_BRICK_SIZE) (hmagic : magicOk b = true) :
    (b.drop 4).take (SCOUTFS_BRICK_SIZE - 4) = specCrcRegion b ∧
    (crcOk b = true ↔ crc32c 0xFFFFFFFF (specCrcRegion b) = hdr_crc b) ∧
    (isValid b = true ↔ crc32c 0xFFFFFFFF (specCrcRegion b) = hdr_crc b) := by
  have hreg : (b.drop 4).take (SCOUTFS_BRICK_SIZE - 4) = b.drop 4 := by
    apply List.take_of_length_le
    simp [hlen]
  have hcrc : crcOk b = true ↔ crc32c 0xFFFFFFFF (specCrcRegion b) = hdr_crc b := by
    unfold crcOk computedCrc
    rw [hreg]
    unfold specCrcRegion
    exact beq_iff_eq
  refine ⟨hreg, hcrc, ?_⟩
  unfold isValid
  rw [hmagic]
  simpa using hcrc

set_option maxRecDepth 400000 in
/-- Witness for C5: a well-formed brick of full length and correct magic;
the validator accepts it exactly when the spec-side checksum matches. -/
theorem C5_crc32c_all_bytes_except_checksum_witness :
    (mkBrick 1 0).length = SCOUTFS_BRICK_SIZE ∧ magicOk (mkBrick 1 0) = true ∧
    (((mkBrick 1 0).drop 4).take (SCOUTFS_BRICK_SIZE - 4) = specCrcRegion (mkBrick 1 0) ∧
      (crcOk (mkBrick 1 0) = true ↔
        crc32c 0xFFFFFFFF (specCrcRegion (mkBrick 1 0)) = hdr_crc (mkBrick 1 0)) ∧
      (isValid (mkBrick 1 0) = true ↔
        crc32c 0xFFFFFFFF (specCrcRegion (mkBrick 1 0)) = hdr_crc (mkBrick 1 0))) :=
  ⟨by decide, by decide,
    C5_crc32c_all_bytes_except_checksum (mkBrick 1 0) (by decide) (by decide)⟩

/-- read_supers only ever fails with -EINVAL. -/
theorem read_supers_error_val (slots : List (Option Brick)) (e : Int)
    (h : read_supers slots = .error e) : e = -EINVAL := by
  simp only [read_supers] at h
  split at h
  · injection h with h2
    exact h2.symm
  · cases h

/-- Every run of scoutfs_fill_super that returns 0 got a successful
read_supers result and left that result installed as s_fs_info. -/
theorem fill_super_ret_zero_inv (inp : FillInput) (sb : SB)
    (h : (scoutfs_fill_super inp sb).1 = 0) :
    ∃ w sbi, read_supers inp.slots = .ok (w, sbi) ∧
      (scoutfs_fill_super inp sb).2.1.s_fs_info = some sbi := by
  cases ha : inp.allocOk with
  | false => simp [scoutfs_fill_super, ha, ENOMEM] at h
  | true =>
    cases hb : inp.blocksizeOk with
    | false => simp [scoutfs_fill_super, ha, hb, EINVAL] at h
    | true =>
      rcases hr : read_supers inp.slots with e | p
      · have he := read_supers_error_val inp.slots e hr
        rw [he] at hr
        simp [scoutfs_fill_super, ha, hb, hr, EINVAL] at h
      · obtain ⟨w, sbi⟩ := p
        rcases hi : inp.iget SCOUTFS_ROOT_INO with e | n
        · exact ⟨w, sbi, rfl, by simp [scoutfs_fill_super, ha, hb, hr, hi]⟩
        · cases hm : inp.mkRootOk n with
          | false => simp [scoutfs_fill_super, ha, hb, hr, hi, hm, ENOMEM] at h
          | true => exact ⟨w, sbi, rfl, by simp [scoutfs_fill_super, ha, hb, hr, hi, hm]⟩

set_option maxRecDepth 400000 in
/-- C6 counterexample: in a fully successful mount run of the code, the
stage trace allocates the filesystem context first (kzalloc) and sets the
device block size second, so the claimed order - block size configured
before the context is allocated - is false on this run. -/
theorem C6_counterexample_alloc_precedes_blocksize :
    ¬ blocksizeBeforeAlloc (scoutfs_fill_super inpOk sb0).2.2 := by
  decide

/-- C6 amended: in scoutfs_fill_super the context allocation (kzalloc) is
stage 1 and the device block-size configuration is stage 2, each gating
the next: every run starts with the allocation stage; an allocation
failure aborts the mount with -ENOMEM before the block size is touched; a
block-size failure aborts the mount with -EINVAL right after those two
stages, before superblock selection; and whenever the block size is set,
the allocation stage precedes it in the trace. -/
theorem C6_alloc_first_blocksize_second (inp : FillInput) (sb : SB) :
    (scoutfs_fill_super inp sb).2.2.head? = some MountEvent.Kzalloc ∧
    (inp.allocOk = false →
      (scoutfs_fill_super inp sb).1 = -ENOMEM ∧
      (scoutfs_fill_super inp sb).2.2 = [MountEvent.Kzalloc]) ∧
    (inp.allocOk = true → inp.blocksizeOk = false →
      (scoutfs_fill_super inp sb).1 = -EINVAL ∧
      (scoutfs_fill_super inp sb).2.2 = [MountEvent.Kzalloc, MountEvent.SetBlocksize]) ∧
    (MountEvent.SetBlocksize ∈ (scoutfs_fill_super inp sb).2.2 →
      (scoutfs_fill_super inp sb).2.2.indexOf MountEvent.Kzalloc <
        (scoutfs_fill_super inp sb).2.2.indexOf MountEvent.SetBlocksize) := by
  cases ha : inp.allocOk with
  | false =>
    have ht : (scoutfs_fill_super inp sb).2.2 = [MountEvent.Kzalloc] := by
      simp [scoutfs_fill_super, ha]
    have hv : (scoutfs_fill_super inp sb).1 = -ENOMEM := by
      simp [scoutfs_fill_super, ha]
    rw [ht, hv]
    refine ⟨rfl, fun _ => ⟨rfl, rfl⟩, ?_, ?_⟩
    · intro hc
      exact absurd hc (by decide)
    · intro hmem
      exact absurd hmem (by decide)
  | true =>
    cases hb : inp.blocksizeOk with
    | false =>
      have ht : (scoutfs_fill_super inp sb).2.2 =
          [MountEvent.Kzalloc, MountEvent.SetBlocksize] := by
        simp [scoutfs_fill_super, ha, hb]
      have hv : (scoutfs_fill_super inp sb).1 = -EINVAL := by
        simp [scoutfs_fill_super, ha, hb]
      rw [ht, hv]
      refine ⟨rfl, ?_, fun _ _ => ⟨rfl, rfl⟩, ?_⟩
      · intro hc
        exact absurd hc (by decide)
      · intro _
        decide
    | true =>
      rcases hr : read_supers inp.slots with e | p
      · have ht : (scoutfs_fill_super inp sb).2.2 =
            [MountEvent.Kzalloc, MountEvent.SetBlocksize, MountEvent.ReadSupers] := by
          simp [scoutfs_fill_super, ha, hb, hr]
        rw [ht]
        refine ⟨rfl, ?_, ?_, ?_⟩
        · intro hc
          exact absurd hc (by decide)
        · intro _ hc
          exact absurd hc (by decide)
        · intro _
          decide
      · obtain ⟨w, sbi⟩ := p
        rcases hi : inp.iget SCOUTFS_ROOT_INO with e | n
        · have ht : (scoutfs_fill_super inp sb).2.2 =
              [MountEvent.Kzalloc, MountEvent.SetBlocksize, MountEvent.ReadSupers,
                MountEvent.Iget] := by
            simp [scoutfs_fill_super, ha, hb, hr, hi]
          rw [ht]
          refine ⟨rfl, ?_, ?_, ?_⟩
          · intro hc
            exact absurd hc (by decide)
          · intro _ hc
            exact absurd hc (by decide)
          · intro _
            decide
        · cases hm : inp.mkRootOk n with
          | false =>
            have ht : (scoutfs_fill_super inp sb).2.2 =
                [MountEvent.Kzalloc, MountEvent.SetBlocksize, MountEvent.ReadSupers,
                  MountEvent.Iget, MountEvent.MakeRoot] := by
              simp [scoutfs_fill_super, ha, hb, hr, hi, hm]
            rw [ht]
            refine ⟨rfl, ?_, ?_, ?_⟩
            · intro hc
              exact absurd hc (by decide)
            · intro _ hc
              exact absurd hc (by decide)
            · intro _
              decide
          | true =>
            have ht : (scoutfs_fill_super inp sb).2.2 =
                [MountEvent.Kzalloc, MountEvent.SetBlocksize, MountEvent.ReadSupers,
                  MountEvent.Iget, MountEvent.MakeRoot] := by
              simp [scoutfs_fill_super, ha, hb, hr, hi, hm]
            rw [ht]
            refine ⟨rfl, ?_, ?_, ?_⟩
            · intro hc
              exact absurd hc (by decide)
            · intro _ hc
              exact absurd hc (by decide)
            · intro _
              decide

set_option maxRecDepth 400000 in
/-- Witness for the amended C6: a fully successful run shows the stage
order Kzalloc, SetBlocksize, ReadSupers, Iget, MakeRoot. -/
theorem C6_alloc_first_blocksize_second_witness :
    (scoutfs_fill_super inpOk sb0).2.2.head? = some MountEvent.Kzalloc ∧
    (inpOk.allocOk = false →
      (scoutfs_fill_super inpOk sb0).1 = -ENOMEM ∧
      (scoutfs_fill_super inpOk sb0).2.2 = [MountEvent.Kzalloc]) ∧
    (inpOk.allocOk = true → inpOk.blocksizeOk = false →
      (scoutfs_fill_super inpOk sb0).1 = -EINVAL ∧
      (scoutfs_fill_super inpOk sb0).2.2 =
        [MountEvent.Kzalloc, MountEvent.SetBlocksize]) ∧
    (MountEvent.SetBlocksize ∈ (scoutfs_fill_super inpOk sb0).2.2 →
      (scoutfs_fill_super inpOk sb0).2.2.indexOf MountEvent.Kzalloc <
        (scoutfs_fill_super inpOk sb0).2.2.indexOf MountEvent.SetBlocksize) :=
  C6_alloc_first_blocksize_second inpOk sb0

/-- C7: when the superblock selection succeeded but root inode resolution
fails (scoutfs_iget returns an error pointer) or root attachment fails
(d_make_root returns NULL), the mount operation fails, and the
initialized filesystem context that fill_super had installed is released
(s_fs_info freed) before the error reaches the caller. -/
theorem C7_context_released_on_root_failure (inp : FillInput)
    (halloc : inp.allocOk = true) (hbs : inp.blocksizeOk = true)
    (w : Nat) (sbi : scoutfs_sb_info)
    (hsel : read_supers inp.slots = .ok (w, sbi))
    (hroot : (∃ e, e < 0 ∧ inp.iget SCOUTFS_ROOT_INO = .error e) ∨
      (∃ n, inp.iget SCOUTFS_ROOT_INO = .ok n ∧ inp.mkRootOk n = false)) :
    (scoutfs_fill_super inp { s_fs_info := none, s_root := none }).2.1.s_fs_info
      = some sbi ∧
    (scoutfs_mount inp).1 ≠ 0 ∧
    (scoutfs_mount inp).2.1.s_fs_info = none := by
  rcases hroot with ⟨e, he, hi⟩ | ⟨n, hi, hm⟩
  · refine ⟨by simp [scoutfs_fill_super, halloc, hbs, hsel, hi], ?_, ?_⟩
    · have h1 : (scoutfs_fill_super inp
          { s_fs_info := none, s_root := none }).1 = e := by
        simp [scoutfs_fill_super, halloc, hbs, hsel, hi]
      simp only [scoutfs_mount]
      split
      · rw [h1]
        omega
      · rename_i hzero
        rw [h1] at hzero
        omega
    · have h1 : (scoutfs_fill_super inp
          { s_fs_info := none, s_root := none }).1 = e := by
        simp [scoutfs_fill_super, halloc, hbs, hsel, hi]
      simp only [scoutfs_mount]
      split
      · simp [scoutfs_kill_sb]
      · rename_i hzero
        rw [h1] at hzero
        omega
  · refine ⟨by simp [scoutfs_fill_super, halloc, hbs, hsel, hi, hm], ?_, ?_⟩
    · have h1 : (scoutfs_fill_super inp
          { s_fs_info := none, s_root := none }).1 = -ENOMEM := by
        simp [scoutfs_fill_super, halloc, hbs, hsel, hi, hm]
      simp only [scoutfs_mount]
      split
      · rw [h1]
        simp [ENOMEM]
      · rename_i hzero
        rw [h1] at hzero
        simp [ENOMEM] at hzero
    · have h1 : (scoutfs_fill_super inp
          { s_fs_info := none, s_root := none }).1 = -ENOMEM := by
        simp [scoutfs_fill_super, halloc, hbs, hsel, hi, hm]
      simp only [scoutfs_mount]
      split
      · simp [scoutfs_kill_sb]
      · rename_i hzero
        rw [h1] at hzero
        simp [ENOMEM] at hzero

set_option maxRecDepth 400000 in
/-- Witness for C7: selection succeeds on slot 0 but root inode
resolution fails with -ENOENT (-2): the mount fails and the context is
released. -/
theorem C7_context_released_on_root_failure_witness :
    read_supers inpIgetFail.slots = .ok (0, sbiOf (mkBrick 1 0)) ∧
    ((scoutfs_fill_super inpIgetFail sb0).2.1.s_fs_info = some (sbiOf (mkBrick 1 0)) ∧
      (scoutfs_mount inpIgetFail).1 ≠ 0 ∧
      (scoutfs_mount inpIgetFail).2.1.s_fs_info = none) :=
  ⟨by decide,
    C7_context_released_on_root_failure inpIgetFail rfl rfl 0 (sbiOf (mkBrick 1 0))
      (by decide) (Or.inl ⟨-2, by norm_num, rfl⟩)⟩

/-- C8: every successful mount seeds the context's next_ino and
next_blkno counters from the fixed bootstrap constants
(SCOUTFS_ROOT_INO + 1 and 2), never from the selected record's payload:
any two successful mounts, whatever records they selected, end with
identical counter values. -/
theorem C8_counters_from_fixed_constants (inp1 inp2 : FillInput) (sb1 sb2 : SB)
    (h1 : (scoutfs_fill_super inp1 sb1).1 = 0)
    (h2 : (scoutfs_fill_super inp2 sb2).1 = 0) :
    ∃ sbi1 sbi2,
      (scoutfs_fill_super inp1 sb1).2.1.s_fs_info = some sbi1 ∧
      (scoutfs_fill_super inp2 sb2).2.1.s_fs_info = some sbi2 ∧
      sbi1.next_ino = SCOUTFS_ROOT_INO + 1 ∧ sbi1.next_blkno = 2 ∧
      sbi2.next_ino = sbi1.next_ino ∧ sbi2.next_blkno = sbi1.next_blkno := by
  obtain ⟨w1, sbi1, hr1, hfs1⟩ := fill_super_ret_zero_inv inp1 sb1 h1
  obtain ⟨w2, sbi2, hr2, hfs2⟩ := fill_super_ret_zero_inv inp2 sb2 h2
  obtain ⟨_, _, hino1, hblk1, _, _⟩ := read_supers_ok_inv _ _ _ hr1
  obtain ⟨_, _, hino2, hblk2, _, _⟩ := read_supers_ok_inv _ _ _ hr2
  exact ⟨sbi1, sbi2, hfs1, hfs2, hino1, hblk1, by rw [hino1, hino2],
    by rw [hblk1, hblk2]⟩

set_option maxRecDepth 400000 in
/-- Witness for C8: two successful mounts whose selected records carry
different sequences and different payload bytes; the theorem applies and
both mounts get the same fixed counter seeds. -/
theorem C8_counters_from_fixed_constants_witness :
    (scoutfs_fill_super inpOk sb0).1 = 0 ∧
    (scoutfs_fill_super inpOk2 sb0).1 = 0 ∧
    (∃ sbi1 sbi2,
      (scoutfs_fill_super inpOk sb0).2.1.s_fs_info = some sbi1 ∧
      (scoutfs_fill_super inpOk2 sb0).2.1.s_fs_info = some sbi2 ∧
      sbi1.next_ino = SCOUTFS_ROOT_INO + 1 ∧ sbi1.next_blkno = 2 ∧
      sbi2.next_ino = sbi1.next_ino ∧ sbi2.next_blkno = sbi1.next_blkno) :=
  ⟨by decide, by decide,
    C8_counters_from_fixed_constants inpOk inpOk2 sb0 sb0 (by decide) (by decide)⟩

end Scoutfs
